import Mathlib

/-!
Shallow embedding of the zfs2s3 snapshot lifecycle engine
(src/zfs.rs, src/lib.rs, src/main.rs, src/config.rs).

Snapshot names are modelled as `List Char`; creation timestamps as `Int`
(unix seconds, the precision the program works at: `zfs list -p` emits
unix seconds and `chrono` datetimes are compared at second precision
here).  Fallible operations return `Except`/`Option` mirroring `Result`.
-/

namespace Zfs2S3

/-- `BACKUP_SUFFIX_INCREMENTAL` from src/lib.rs. -/
def BACKUP_SUFFIX_INCREMENTAL : List Char := "auto-backup-incremental-".toList

/-- `BACKUP_SUFFIX` from src/lib.rs. -/
def BACKUP_SUFFIX : List Char := "auto-backup-".toList

/-- Rust `str::contains(substring)`: some tail of the haystack starts with
the pattern. -/
def containsSub (hay pat : List Char) : Bool :=
  hay.tails.any fun t => pat.isPrefixOf t

/-- `is_incremental_snapshot` from src/lib.rs: substring test for the
incremental suffix marker. -/
def isIncrementalSnapshot (name : List Char) : Bool :=
  containsSub name BACKUP_SUFFIX_INCREMENTAL

/-- `Snapshot` from src/zfs.rs: fully qualified name and creation time. -/
structure Snapshot where
  name : List Char
  creation : Int
deriving DecidableEq

/-- `SnapshotError` from src/zfs.rs. -/
inductive SnapshotError where
  | invalidFormat (line : List Char)
  | timestampError (text : List Char)
  | failedToExtractKey (name : List Char)
deriving DecidableEq

/-- Rust `str::split(sep)` on a character: the list of (possibly empty)
fields between occurrences of `sep`.  Splitting the empty string yields
`[[]]`, as in Rust. -/
def splitChar (sep : Char) : List Char → List (List Char)
  | [] => [[]]
  | c :: cs =>
    match splitChar sep cs with
    | [] => [[c]]
    | r :: rs => if c = sep then [] :: r :: rs else (c :: r) :: rs

/-- `Snapshot::to_key` from src/zfs.rs: `name.split('/').collect().last()`,
with the `None` case mapped to `FailedToExtractKey`. -/
def to_key (name : List Char) : Except SnapshotError (List Char) :=
  match (splitChar '/' name).getLast? with
  | some k => .ok k
  | none => .error (.failedToExtractKey name)

/-- Comparison definition written from the spec's words for the key
derivation: the substring of the name after the last `'/'` (the whole
name when there is no `'/'`). -/
def suffixAfterLast (sep : Char) : List Char → List Char
  | [] => []
  | c :: cs =>
    if sep ∈ cs then suffixAfterLast sep cs
    else if c = sep then cs
    else c :: suffixAfterLast sep cs

/-! ### Retention engine (src/zfs.rs, `apply_retention_policy`) -/

/-- Original indices of the full (non-incremental) snapshots of a
sequence, in order: the Rust
`iter().enumerate().filter(|(_, s)| !s.name.contains(INCR))` stream of
indices. -/
def fullIndices : List Snapshot → List Nat
  | [] => []
  | s :: rest =>
    let shifted := (fullIndices rest).map (· + 1)
    if isIncrementalSnapshot s.name then shifted else 0 :: shifted

/-- `time_cutoff_index` from src/zfs.rs lines 91-95: first position at or
after `start` whose creation is older than the cutoff, or the sequence
length when none is. -/
def timeCutoffIndex (snaps : List Snapshot) (start : Nat) (cut : Int) : Nat :=
  match (snaps.drop start).findIdx? (fun s => decide (s.creation < cut)) with
  | some i => start + i
  | none => snaps.length

/-- `rposition` over `snapshots[..t]` for a full snapshot
(src/zfs.rs lines 98-100): last original index `< t` holding a full
snapshot. -/
def lastFullIndex (snaps : List Snapshot) (t : Nat) : Option Nat :=
  (fullIndices (snaps.take t)).getLast?

/-- `cutoff_index` from src/zfs.rs lines 98-102. -/
def retentionCutoffIndex (snaps : List Snapshot) (start : Nat) (cut : Int) : Nat :=
  match lastFullIndex snaps (timeCutoffIndex snaps start cut) with
  | some p => p + 1
  | none => timeCutoffIndex snaps start cut

/-- The pure per-volume core of `VolumeSnapshotMap::apply_retention_policy`
(src/zfs.rs lines 78-105): find the `keep_min`-th full snapshot; if it
exists, truncate the sequence at `cutoff_index`. -/
def applyRetentionVolume (keepMin : Nat) (cut : Int) (snaps : List Snapshot) : List Snapshot :=
  match (fullIndices snaps)[keepMin]? with
  | none => snaps
  | some start => snaps.take (retentionCutoffIndex snaps start cut)

/-! ### Catalog construction (src/zfs.rs, `VolumeSnapshotMap`) -/

/-- Insertion of a snapshot into a creation-descending list: the element
is placed before the first element whose creation is at most its own.
`sortDesc` folds from the right, so an element is inserted into the
already-sorted list of its successors and, on equal creation times, ends
up before them — preserving the original relative order of equal keys,
as Rust's stable `sort_by(b.creation.cmp(&a.creation))` does. -/
def insertDesc (s : Snapshot) : List Snapshot → List Snapshot
  | [] => [s]
  | t :: ts => if t.creation ≤ s.creation then s :: t :: ts else t :: insertDesc s ts

/-- Stable sort by creation time descending, as in
`map_snapshot_to_volume` (src/zfs.rs line 70). -/
def sortDesc (snaps : List Snapshot) : List Snapshot :=
  snaps.foldr insertDesc []

/-- `VolumeSnapshotMap::map_snapshot_to_volume` (src/zfs.rs lines 62-72):
filter the global snapshot listing to names prefixed by `<volume>@`, then
sort by creation descending. -/
def mapSnapshotToVolume (volume : List Char) (snapshots : List Snapshot) : List Snapshot :=
  sortDesc (snapshots.filter fun s => (volume ++ [ '@' ]).isPrefixOf s.name)

/-- `VolumeSnapshotMap::new` (src/zfs.rs lines 20-32), with the volume
listing and snapshot listing passed in: every listed volume becomes a
bucket of its prefix-matching snapshots.  The `HashMap` is modelled as an
association list. -/
def buildVolumeMap (volumes : List (List Char)) (snapshots : List Snapshot) :
    List (List Char × List Snapshot) :=
  volumes.map fun v => (v, mapSnapshotToVolume v snapshots)

/-- Fuelled worker for `globMatch`: every recursive call strictly
decreases `pat.length + str.length`, so fuel `pat.length + str.length + 1`
never runs out.  As in `fast_glob`, `*` matches zero or more characters
*except* the path separator `'/'` and `?` matches one character except
`'/'`; literal characters (including `'/'` itself) match themselves. -/
def globMatchFuel : Nat → List Char → List Char → Bool
  | 0, _, _ => false
  | _ + 1, [], [] => true
  | _ + 1, [], _ :: _ => false
  | f + 1, '*' :: ps, [] => globMatchFuel f ps []
  | f + 1, '*' :: ps, c :: cs =>
    globMatchFuel f ps (c :: cs) || (c != '/' && globMatchFuel f ('*' :: ps) cs)
  | _ + 1, '?' :: _, [] => false
  | f + 1, '?' :: ps, c :: cs => c != '/' && globMatchFuel f ps cs
  | _ + 1, _ :: _, [] => false
  | f + 1, p :: ps, c :: cs => p = c && globMatchFuel f ps cs

/-- `fast_glob::glob_match` restricted to the `*`, `?` and literal-character
constructs (the constructs exercised by this development): `*` matches
any run of non-separator characters and `?` a single non-separator
character.  The crate's globstar `**`, character classes and brace
alternations are not modelled; no pattern in this development uses
them. -/
def globMatch (pat str : List Char) : Bool :=
  globMatchFuel (pat.length + str.length + 1) pat str

/-- `VolumeSnapshotMap::keep_volume_to_backup` (src/zfs.rs lines 38-52):
retain the volumes whose path matches any `backup.volumes` glob. -/
def keepVolumeToBackup (patterns : List (List Char))
    (m : List (List Char × List Snapshot)) : List (List Char × List Snapshot) :=
  m.filter fun v => patterns.any fun pat => globMatch pat v.1

/-- The truncation pass of `apply_retention_policy` over the whole map
(src/zfs.rs lines 78-106). -/
def applyRetentionMap (keepMin : Nat) (cut : Int)
    (m : List (List Char × List Snapshot)) : List (List Char × List Snapshot) :=
  m.map fun v => (v.1, applyRetentionVolume keepMin cut v.2)

/-- Whether some bucket of the map holds a snapshot with the given name
(the membership test of `zfs::sync_snapshots`, src/zfs.rs lines 299-306). -/
def mapContainsName (m : List (List Char × List Snapshot)) (n : List Char) : Bool :=
  m.any fun v => v.2.any fun s => decide (s.name = n)

/-- `zfs::sync_snapshots` (src/zfs.rs lines 294-313) as its delete set:
every snapshot of the global listing whose name no bucket of the map
contains is destroyed. -/
def syncSnapshotsDeleted (allSnaps : List Snapshot)
    (m : List (List Char × List Snapshot)) : List Snapshot :=
  allSnaps.filter fun s => !(mapContainsName m s.name)

/-! ### Reconciler push phase (src/lib.rs) -/

/-- The upload-side error cases of `Zfs2S3Error::UploadError`
(src/lib.rs): each case is one of the distinct message branches. -/
inductive UploadError where
  | noSnapshots (vol : List Char)
  | fullIsIncremental (name : List Char)
  | notEnoughSnapshots (vol : List Char)
  | notIncremental (name : List Char)
  | keyFailed (name : List Char)
deriving DecidableEq

/-- One streaming upload performed against the object store: the S3 key
and the `zfs send` arguments. -/
inductive UploadAction where
  | fullUpload (key name : List Char)
  | incrUpload (key baseName toName : List Char)
deriving DecidableEq

/-- `upload_single_full_snapshot_to_s3` (src/lib.rs lines 93-126), as the
upload it performs: take the first snapshot of the slice, reject an
incremental-suffixed one, derive the key, stream full. -/
def uploadSingleFull (vol : List Char) (snaps : List Snapshot) :
    Except UploadError UploadAction :=
  match snaps with
  | [] => .error (.noSnapshots vol)
  | s :: _ =>
    if isIncrementalSnapshot s.name then .error (.fullIsIncremental s.name)
    else
      match to_key s.name with
      | .error _ => .error (.keyFailed s.name)
      | .ok key => .ok (.fullUpload key s.name)

/-- `upload_single_incremental_snapshot_to_s3` (src/lib.rs lines 129-163):
take the two newest snapshots of the slice (error
`Not enough snapshots ...` when fewer than two exist — the spec's
`NotEnoughSnapshots`), require the newest to carry the incremental
marker, derive the key, stream incrementally from the second. -/
def uploadSingleIncr (vol : List Char) (snaps : List Snapshot) :
    Except UploadError UploadAction :=
  match snaps with
  | toSnap :: base :: _ =>
    if isIncrementalSnapshot toSnap.name then
      match to_key toSnap.name with
      | .error _ => .error (.keyFailed toSnap.name)
      | .ok key => .ok (.incrUpload key base.name toSnap.name)
    else .error (.notIncremental toSnap.name)
  | _ => .error (.notEnoughSnapshots vol)

/-- The per-volume loop of `sync_missing_snapshots`
(src/lib.rs lines 182-201), processing the snapshot list front to back
(the sequence is creation-descending, so front to back is newest first):
for each snapshot whose key is absent from the S3 listing, invoke the
single-upload function on the slice from that snapshot onward.  The
result is the sequence of uploads in the order performed, or the first
error (`?` aborts the loop; uploads already performed before the error
are not recorded). -/
def syncMissingVolumeAux (s3objs : List (List Char)) (vol : List Char) :
    List Snapshot → Except UploadError (List UploadAction)
  | [] => .ok []
  | s :: rest =>
    match to_key s.name with
    | .error _ => .error (.keyFailed s.name)
    | .ok key =>
      if s3objs.contains key then syncMissingVolumeAux s3objs vol rest
      else
        match
          (if isIncrementalSnapshot s.name then uploadSingleIncr vol (s :: rest)
           else uploadSingleFull vol (s :: rest)) with
        | .error e => .error e
        | .ok a =>
          match syncMissingVolumeAux s3objs vol rest with
          | .error e => .error e
          | .ok as => .ok (a :: as)

/-! ### Daemon loop tick control flow (src/main.rs) -/

/-- Outcome of one loop-body iteration: either the loop proceeds to its
next tick, or the enclosing async function returns an error and the loop
(hence the task) terminates. -/
inductive TickOutcome (E : Type) where
  | nextTick : TickOutcome E
  | loopReturns (e : E) : TickOutcome E
deriving DecidableEq

/-- One post-sleep iteration of `run_cleanup` (src/main.rs lines 236-254)
over the outcomes of its four fallible steps: catalog build
(`VolumeSnapshotMap::new().await?` — the `?` propagates), refresh,
retention, and S3 sync (each of the latter is logged with `log::error!`
and the loop continues). -/
def runCleanupTick {E : Type} (buildR refreshR retentionR syncR : Option E) :
    TickOutcome E :=
  match buildR with
  | some e => .loopReturns e
  | none =>
    match refreshR with
    | some _ => .nextTick
    | none =>
      match retentionR with
      | some _ => .nextTick
      | none =>
        match syncR with
        | some _ => .nextTick
        | none => .nextTick

/-- One post-sleep iteration of an incremental-mode tick of
`run_scheduled_backups` (src/main.rs lines 174-205) over the outcomes of
its five fallible steps: catalog build (`?` propagates), bootstrap
(`ensure_snapshots_for_volumes`), snapshot creation, refresh, and S3 sync
(each of the latter four is logged and the loop continues). -/
def runBackupTick {E : Type} (buildR ensureR snapR refreshR syncR : Option E) :
    TickOutcome E :=
  match buildR with
  | some e => .loopReturns e
  | none =>
    match ensureR with
    | some _ => .nextTick
    | none =>
      match snapR with
      | some _ => .nextTick
      | none =>
        match refreshR with
        | some _ => .nextTick
        | none =>
          match syncR with
          | some _ => .nextTick
          | none => .nextTick

/-! ### Backup scheduler merge (src/main.rs lines 147-165) -/

/-- `SnapshotType` from src/lib.rs. -/
inductive SnapshotType where
  | full
  | incremental
deriving DecidableEq

/-- The schedule-merging choice of `run_scheduled_backups`
(src/main.rs lines 161-165): given the computed sleep durations until the
next full fire and the next incremental fire (both non-negative, hence
`Nat`), pick the incremental only when its duration is strictly
smaller. -/
def chooseBackup (scheduleDur incrementalDur : Nat) : Nat × SnapshotType :=
  if incrementalDur < scheduleDur then (incrementalDur, .incremental)
  else (scheduleDur, .full)

/-! ### `zfs list` snapshot line parsing (src/zfs.rs lines 141-154, 202-226) -/

/-- The characters Rust's `split_whitespace` splits on, restricted to the
ASCII whitespace that `zfs list -H` emits (tab, newline, carriage return,
space). -/
def isWS (c : Char) : Bool :=
  c = ' ' || c = '\t' || c = '\n' || c = '\r'

/-- Worker for `splitWS`: accumulate the current field (reversed) and cut
at whitespace, discarding empty fields. -/
def splitWSAux : List Char → List Char → List (List Char)
  | acc, [] => if acc.isEmpty then [] else [acc.reverse]
  | acc, c :: cs =>
    if isWS c then
      if acc.isEmpty then splitWSAux [] cs
      else acc.reverse :: splitWSAux [] cs
    else splitWSAux (c :: acc) cs

/-- Rust `str::split_whitespace`: the non-empty fields between runs of
whitespace. -/
def splitWS (l : List Char) : List (List Char) :=
  splitWSAux [] l

/-- `i64::MAX`. -/
def I64_MAX : Int := 9223372036854775807

/-- `i64::MIN`. -/
def I64_MIN : Int := -9223372036854775808

/-- Accumulate base-10 digits; any non-digit character fails. -/
def parseDigitsAux : Nat → List Char → Option Nat
  | acc, [] => some acc
  | acc, c :: cs =>
    if '0' ≤ c ∧ c ≤ '9' then parseDigitsAux (acc * 10 + (c.toNat - '0'.toNat)) cs
    else none

/-- All-digit parse of a non-empty digit string. -/
def parseDigits : List Char → Option Nat
  | [] => none
  | l => parseDigitsAux 0 l

/-- Rust `str::parse::<i64>`: optional single sign, then one or more
digits, and the value must fit in `i64` (overflow is an error). -/
def parseI64 (l : List Char) : Option Int :=
  match l with
  | '+' :: rest =>
    (parseDigits rest).bind fun n =>
      if (n : Int) ≤ I64_MAX then some (n : Int) else none
  | '-' :: rest =>
    (parseDigits rest).bind fun n =>
      if I64_MIN ≤ -(n : Int) then some (-(n : Int)) else none
  | _ =>
    (parseDigits l).bind fun n =>
      if (n : Int) ≤ I64_MAX then some (n : Int) else none

/-- Smallest unix-second value representable by a `chrono` naive datetime
(`-262144-01-01T00:00:00`, year `i32::MIN >> 13`). -/
def TS_MIN : Int := -8334632937600

/-- Largest unix-second value representable by a `chrono` naive datetime
(`262143-12-31T23:59:59`, year `i32::MAX >> 13`). -/
def TS_MAX : Int := 8210298412799

/-- `chrono` `DateTime::<Utc>::from_timestamp_secs`: in-range unix seconds
yield the datetime (represented here by its unix seconds), out-of-range
values yield `None`. -/
def from_timestamp_secs (t : Int) : Option Int :=
  if TS_MIN ≤ t ∧ t ≤ TS_MAX then some t else none

/-- `Snapshot::try_from` (src/zfs.rs lines 141-154): split the line on
whitespace, require exactly two fields, parse the second as `i64`, then
convert it to a datetime. -/
def tryFrom (line : List Char) : Except SnapshotError Snapshot :=
  match splitWS line with
  | [p0, p1] =>
    match parseI64 p1 with
    | none => .error (.timestampError p1)
    | some t =>
      match from_timestamp_secs t with
      | none => .error (.timestampError p1)
      | some c => .ok { name := p0, creation := c }
  | _ => .error (.invalidFormat line)

/-- The parsing pass of `list_snapshots` (src/zfs.rs lines 214-221):
`lines.filter_map(|line| Snapshot::try_from(line).ok())`. -/
def listSnapshotsParse (lines : List (List Char)) : List Snapshot :=
  lines.filterMap fun l => (tryFrom l).toOption

/-! ### Theorems -/

theorem splitChar_ne_nil (sep : Char) (l : List Char) : splitChar sep l ≠ [] := by
  induction l with
  | nil => simp [splitChar]
  | cons c cs ih =>
    rcases hsp : splitChar sep cs with _ | ⟨r, rs⟩
    · exact absurd hsp ih
    · simp only [splitChar, hsp]
      split <;> simp

theorem splitChar_of_not_mem (sep : Char) (l : List Char) (h : sep ∉ l) :
    splitChar sep l = [l] := by
  induction l with
  | nil => rfl
  | cons c cs ih =>
    have hc : ¬ c = sep := fun he => h (by rw [he]; exact List.mem_cons_self sep cs)
    have hcs : sep ∉ cs := fun hm => h (List.mem_cons_of_mem c hm)
    simp only [splitChar, ih hcs]
    simp [hc]

theorem suffixAfterLast_of_not_mem (sep : Char) (l : List Char) (h : sep ∉ l) :
    suffixAfterLast sep l = l := by
  induction l with
  | nil => rfl
  | cons c cs ih =>
    have hc : ¬ c = sep := fun he => h (by rw [he]; exact List.mem_cons_self sep cs)
    have hcs : sep ∉ cs := fun hm => h (List.mem_cons_of_mem c hm)
    simp [suffixAfterLast, hcs, hc, ih hcs]

theorem splitChar_mem_structure (sep : Char) (l : List Char) (h : sep ∈ l) :
    ∃ a t, splitChar sep l = a :: t ∧ t ≠ [] := by
  induction l with
  | nil => cases h
  | cons c cs ih =>
    rcases hsp : splitChar sep cs with _ | ⟨r, rs⟩
    · exact absurd hsp (splitChar_ne_nil sep cs)
    · by_cases hc : c = sep
      · exact ⟨[], r :: rs, by simp [splitChar, hsp, hc], by simp⟩
      · have hm : sep ∈ cs := by
          rcases List.mem_cons.mp h with h1 | h2
          · exact absurd h1.symm hc
          · exact h2
        obtain ⟨a, t, hat, ht⟩ := ih hm
        rw [hat] at hsp
        injection hsp with h1 h2
        refine ⟨c :: a, t, ?_, ht⟩
        simp [splitChar, hat, hc]

theorem getLast?_splitChar (sep : Char) (l : List Char) :
    (splitChar sep l).getLast? = some (suffixAfterLast sep l) := by
  induction l with
  | nil => rfl
  | cons c cs ih =>
    rcases hsp : splitChar sep cs with _ | ⟨r, rs⟩
    · exact absurd hsp (splitChar_ne_nil sep cs)
    · by_cases hc : c = sep
      · have e1 : splitChar sep (c :: cs) = [] :: r :: rs := by
          simp [splitChar, hsp, hc]
        rw [e1, List.getLast?_cons_cons, ← hsp, ih]
        by_cases hm : sep ∈ cs
        · simp [suffixAfterLast, hm]
        · simp [suffixAfterLast, hm, hc, suffixAfterLast_of_not_mem sep cs hm]
      · by_cases hm : sep ∈ cs
        · obtain ⟨a, t, hat, ht⟩ := splitChar_mem_structure sep cs hm
          have e1 : splitChar sep (c :: cs) = (c :: a) :: t := by
            simp [splitChar, hat, hc]
          rw [e1]
          cases t with
          | nil => exact absurd rfl ht
          | cons b u =>
            rw [List.getLast?_cons_cons]
            have ih2 := ih
            rw [hat, List.getLast?_cons_cons] at ih2
            rw [ih2]
            simp [suffixAfterLast, hm]
        · have e2 : splitChar sep cs = [cs] := splitChar_of_not_mem sep cs hm
          have e1 : splitChar sep (c :: cs) = [c :: cs] := by
            simp [splitChar, e2, hc]
          rw [e1]
          simp [suffixAfterLast, hm, hc, suffixAfterLast_of_not_mem sep cs hm]

/-- `to_key` always succeeds, returning the suffix after the last slash. -/
theorem to_key_eq (name : List Char) :
    to_key name = .ok (suffixAfterLast '/' name) := by
  unfold to_key
  rw [getLast?_splitChar]

/-- C10: `Snapshot::to_key` is total — for every name it returns `Ok`
with the substring after the last `'/'` (the whole name when there is no
`'/'`); the `FailedToExtractKey` branch is unreachable. -/
theorem to_key_total (name : List Char) :
    to_key name = .ok (suffixAfterLast '/' name)
    ∧ (∀ e, to_key name ≠ .error e)
    ∧ ('/' ∉ name → to_key name = .ok name) := by
  refine ⟨to_key_eq name, ?_, ?_⟩
  · intro e hcontra
    rw [to_key_eq] at hcontra
    exact Except.noConfusion hcontra
  · intro hm
    rw [to_key_eq, suffixAfterLast_of_not_mem _ _ hm]

/-- C10, witnessed on a name with no slash: the whole name is the key. -/
theorem to_key_total_witness :
    to_key "noslash@x".toList = .ok "noslash@x".toList :=
  (to_key_total "noslash@x".toList).2.2 (by decide)

/-- C7: for a missing incremental snapshot at position `i` of a volume's
descending sequence, the upload the reconciler performs on the slice
`snaps[i..]` streams from the snapshot at the next position (the next
older snapshot, regardless of kind); when there is no next position, the
upload fails with `NotEnoughSnapshots` and no upload action is
produced. -/
theorem incremental_upload_base_and_error (vol : List Char)
    (snaps : List Snapshot) (i : Nat) (hi : i < snaps.length)
    (hinc : isIncrementalSnapshot snaps[i].name = true) :
    (∀ h2 : i + 1 < snaps.length,
        uploadSingleIncr vol (snaps.drop i)
          = .ok (.incrUpload (suffixAfterLast '/' snaps[i].name)
                  snaps[i + 1].name snaps[i].name))
    ∧ (snaps.length = i + 1 →
        uploadSingleIncr vol (snaps.drop i)
          = .error (.notEnoughSnapshots vol)) := by
  constructor
  · intro h2
    have hd : snaps.drop i = snaps[i] :: snaps.drop (i + 1) :=
      List.drop_eq_getElem_cons hi
    have hd2 : snaps.drop (i + 1) = snaps[i + 1] :: snaps.drop (i + 2) :=
      List.drop_eq_getElem_cons h2
    rw [hd, hd2]
    simp [uploadSingleIncr, hinc, to_key_eq]
  · intro hlen
    have hd : snaps.drop i = snaps[i] :: snaps.drop (i + 1) :=
      List.drop_eq_getElem_cons hi
    have hnil : snaps.drop (i + 1) = [] := by
      rw [← hlen]
      exact List.drop_length snaps
    rw [hd, hnil]
    simp [uploadSingleIncr]

/-- C7, witnessed: a two-element volume uploads the incremental at index
0 from the base at index 1; a one-element volume fails with
`NotEnoughSnapshots`. -/
theorem incremental_upload_base_and_error_witness :
    uploadSingleIncr "p/v".toList
        (([⟨"p/v@auto-backup-incremental-2".toList, 300⟩,
           ⟨"p/v@auto-backup-1".toList, 50⟩] : List Snapshot).drop 0)
      = .ok (.incrUpload "v@auto-backup-incremental-2".toList
              "p/v@auto-backup-1".toList
              "p/v@auto-backup-incremental-2".toList)
    ∧ uploadSingleIncr "p/v".toList
        (([⟨"p/v@auto-backup-incremental-2".toList, 300⟩] : List Snapshot).drop 0)
      = .error (.notEnoughSnapshots "p/v".toList) := by
  constructor
  · exact (incremental_upload_base_and_error "p/v".toList
      [⟨"p/v@auto-backup-incremental-2".toList, 300⟩,
       ⟨"p/v@auto-backup-1".toList, 50⟩] 0 (by decide) (by decide)).1 (by decide)
  · exact (incremental_upload_base_and_error "p/v".toList
      [⟨"p/v@auto-backup-incremental-2".toList, 300⟩] 0
      (by decide) (by decide)).2 (by decide)

/-- C1: evaluation of the retention code at the claim's own example —
the volume sequence `[S3_incr, S2_incr, S1_full]` (newest first) with
`keep_min = 0` and only S1 older than the cutoff.  The claim states that
no snapshot is deleted; the code truncates the sequence to the two
incrementals, destroying the full S1, so the retained incremental S2 no
longer has its immediate predecessor retained. -/
theorem apply_retention_strands_incrementals :
    applyRetentionVolume 0 100
        [⟨"p/v@auto-backup-incremental-3".toList, 300⟩,
         ⟨"p/v@auto-backup-incremental-2".toList, 250⟩,
         ⟨"p/v@auto-backup-1".toList, 50⟩]
      = [⟨"p/v@auto-backup-incremental-3".toList, 300⟩,
         ⟨"p/v@auto-backup-incremental-2".toList, 250⟩]
    ∧ isIncrementalSnapshot "p/v@auto-backup-incremental-2".toList = true
    ∧ (⟨"p/v@auto-backup-1".toList, 50⟩ : Snapshot)
        ∉ applyRetentionVolume 0 100
            [⟨"p/v@auto-backup-incremental-3".toList, 300⟩,
             ⟨"p/v@auto-backup-incremental-2".toList, 250⟩,
             ⟨"p/v@auto-backup-1".toList, 50⟩] :=
  ⟨by decide, by decide, by decide⟩

/-- C2: evaluation of the push loop of `sync_missing_snapshots` on a
volume whose two newest snapshots (both incremental) are missing
remotely while the oldest (full) is present: the code uploads the newest
missing snapshot first, before its older missing predecessor — not
oldest-first as the claim requires. -/
theorem sync_missing_uploads_newest_first :
    syncMissingVolumeAux ["v@auto-backup-1".toList] "p/v".toList
        [⟨"p/v@auto-backup-incremental-3".toList, 300⟩,
         ⟨"p/v@auto-backup-incremental-2".toList, 250⟩,
         ⟨"p/v@auto-backup-1".toList, 50⟩]
      = .ok
          [.incrUpload "v@auto-backup-incremental-3".toList
             "p/v@auto-backup-incremental-2".toList
             "p/v@auto-backup-incremental-3".toList,
           .incrUpload "v@auto-backup-incremental-2".toList
             "p/v@auto-backup-1".toList
             "p/v@auto-backup-incremental-2".toList] := by
  rfl

/-- C4: the retention engine never consults `cleanup.exclude` — a
snapshot whose name matches an exclusion glob (here the glob
`p/v@keep-*`, whose `*` covers only the non-separator tail `2024`) is
truncated and lands in the destroy set regardless. -/
theorem retention_destroys_excluded_snapshot :
    globMatch "p/v@keep-*".toList "p/v@keep-2024".toList = true
    ∧ applyRetentionVolume 0 100
        [⟨"p/v@auto-backup-5".toList, 300⟩, ⟨"p/v@keep-2024".toList, 50⟩]
      = [⟨"p/v@auto-backup-5".toList, 300⟩]
    ∧ (⟨"p/v@keep-2024".toList, 50⟩ : Snapshot)
        ∈ syncSnapshotsDeleted
            [⟨"p/v@auto-backup-5".toList, 300⟩, ⟨"p/v@keep-2024".toList, 50⟩]
            [("p/v".toList,
              applyRetentionVolume 0 100
                [⟨"p/v@auto-backup-5".toList, 300⟩,
                 ⟨"p/v@keep-2024".toList, 50⟩])] :=
  ⟨by decide, by decide, by decide⟩

/-- C5 counterexample: a cleanup tick whose catalog build fails does not
proceed to the next tick — the `?` on `VolumeSnapshotMap::new()` makes
the loop body return the error, terminating the loop. -/
theorem cleanup_tick_build_error_terminates :
    runCleanupTick (E := Unit) (some ()) none none none
      = TickOutcome.loopReturns ()
    ∧ runCleanupTick (E := Unit) (some ()) none none none
      ≠ TickOutcome.nextTick :=
  ⟨rfl, by decide⟩

/-- C5 amended: when the catalog build succeeds, every combination of
failures in the remaining steps of a backup or cleanup tick is logged and
the loop proceeds to its next tick; when the catalog build fails, the
loop returns the error and the task terminates. -/
theorem tick_error_handling_amended {E : Type} (e : E) (r1 r2 r3 r4 : Option E) :
    runBackupTick (E := E) none r1 r2 r3 r4 = TickOutcome.nextTick
    ∧ runCleanupTick (E := E) none r1 r2 r3 = TickOutcome.nextTick
    ∧ runBackupTick (E := E) (some e) r1 r2 r3 r4 = TickOutcome.loopReturns e
    ∧ runCleanupTick (E := E) (some e) r1 r2 r3 = TickOutcome.loopReturns e := by
  refine ⟨?_, ?_, rfl, rfl⟩
  · cases r1 <;> cases r2 <;> cases r3 <;> cases r4 <;> rfl
  · cases r1 <;> cases r2 <;> cases r3 <;> rfl

/-- C5 amended, witnessed: a backup tick whose four post-build steps all
fail still continues; a cleanup tick whose build fails terminates the
loop. -/
theorem tick_error_handling_amended_witness :
    runBackupTick (E := Unit) none (some ()) (some ()) (some ()) (some ())
      = TickOutcome.nextTick
    ∧ runCleanupTick (E := Unit) (some ()) none none none
      = TickOutcome.loopReturns () :=
  ⟨(tick_error_handling_amended () (some ()) (some ()) (some ()) (some ())).1,
   (tick_error_handling_amended () none none none none).2.2.2⟩

/-- C6 counterexample: `keep_min = 0`, a sequence with no full snapshots,
every snapshot older than the cutoff — the claim says all are deleted,
but `nth(0)` over the (empty) full-snapshot stream yields `None`, so the
code deletes nothing. -/
theorem retention_no_fulls_deletes_nothing_cex :
    applyRetentionVolume 0 1000
        [⟨"p/v@auto-backup-incremental-2".toList, 300⟩,
         ⟨"p/v@auto-backup-incremental-1".toList, 200⟩]
      = [⟨"p/v@auto-backup-incremental-2".toList, 300⟩,
         ⟨"p/v@auto-backup-incremental-1".toList, 200⟩]
    ∧ ([⟨"p/v@auto-backup-incremental-2".toList, 300⟩,
        ⟨"p/v@auto-backup-incremental-1".toList, 200⟩] : List Snapshot)
      ≠ ([] : List Snapshot) :=
  ⟨by decide, by decide⟩

/-- C6 amended: with `keep_min = 0` and no full snapshot in the volume's
sequence (whatever the cutoff, in particular with every snapshot older
than it), `apply_retention_policy` deletes none of the volume's
snapshots: fewer than `keep_min + 1` fulls exist, so the sequence is
retained whole. -/
theorem retention_no_fulls_retains_all (cut : Int) (snaps : List Snapshot)
    (hall : ∀ s ∈ snaps, isIncrementalSnapshot s.name = true) :
    applyRetentionVolume 0 cut snaps = snaps := by
  have h : fullIndices snaps = [] := by
    induction snaps with
    | nil => rfl
    | cons s rest ih =>
      have hs := hall s (List.mem_cons_self s rest)
      have hr := ih fun t ht => hall t (List.mem_cons_of_mem s ht)
      simp [fullIndices, hs, hr]
  simp [applyRetentionVolume, h]

/-- C6 amended, witnessed on an all-incremental all-old sequence. -/
theorem retention_no_fulls_retains_all_witness :
    applyRetentionVolume 0 1000
        [⟨"a/b@auto-backup-incremental-9".toList, 5⟩]
      = [⟨"a/b@auto-backup-incremental-9".toList, 5⟩] :=
  retention_no_fulls_retains_all 1000 _ (by decide)

theorem mem_insertDesc (a s : Snapshot) (l : List Snapshot) :
    a ∈ insertDesc s l ↔ a = s ∨ a ∈ l := by
  induction l with
  | nil => simp [insertDesc]
  | cons t ts ih =>
    rw [insertDesc]
    split
    · simp [List.mem_cons]
    · rw [List.mem_cons, ih, List.mem_cons]
      tauto

theorem mem_sortDesc (a : Snapshot) (l : List Snapshot) :
    a ∈ sortDesc l ↔ a ∈ l := by
  induction l with
  | nil => exact Iff.rfl
  | cons t ts ih =>
    have h : sortDesc (t :: ts) = insertDesc t (sortDesc ts) := rfl
    rw [h, mem_insertDesc, ih, List.mem_cons]

theorem applyRetentionVolume_subset (k : Nat) (c : Int) (l : List Snapshot) :
    applyRetentionVolume k c l ⊆ l := by
  unfold applyRetentionVolume
  cases h : (fullIndices l)[k]? with
  | none =>
    simp only [h]
    exact fun x hx => hx
  | some start =>
    simp only [h]
    exact List.take_subset _ _

/-- C3: the delete scope of `apply_retention_policy` is the whole
`zfs list` output minus the truncated filtered catalog — a listed
snapshot is destroyed exactly when its name is absent from the catalog
the policy was invoked on, and in particular every snapshot whose
volume matches no `backup.volumes` glob (or that is bucketed in no
matching volume, e.g. a name without the auto-backup suffix on an
unlisted volume) is destroyed. -/
theorem sync_snapshots_delete_scope (keepMin : Nat) (cut : Int)
    (patterns volumes : List (List Char))
    (catalogSnaps globalSnaps : List Snapshot) (s : Snapshot)
    (hs : s ∈ globalSnaps) :
    (s ∈ syncSnapshotsDeleted globalSnaps
        (applyRetentionMap keepMin cut
          (keepVolumeToBackup patterns (buildVolumeMap volumes catalogSnaps)))
      ↔ mapContainsName
          (applyRetentionMap keepMin cut
            (keepVolumeToBackup patterns (buildVolumeMap volumes catalogSnaps)))
          s.name = false)
    ∧ ((∀ v ∈ volumes,
          patterns.any (fun pat => globMatch pat v) = false
          ∨ (v ++ [ '@' ]).isPrefixOf s.name = false) →
        s ∈ syncSnapshotsDeleted globalSnaps
          (applyRetentionMap keepMin cut
            (keepVolumeToBackup patterns (buildVolumeMap volumes catalogSnaps)))) := by
  set m := applyRetentionMap keepMin cut
      (keepVolumeToBackup patterns (buildVolumeMap volumes catalogSnaps)) with hm
  have hiff : s ∈ syncSnapshotsDeleted globalSnaps m
      ↔ mapContainsName m s.name = false := by
    rw [syncSnapshotsDeleted, List.mem_filter]
    constructor
    · intro ⟨_, hp⟩
      cases hmc : mapContainsName m s.name
      · rfl
      · rw [hmc] at hp
        exact absurd hp (by simp)
    · intro hmc
      exact ⟨hs, by rw [hmc]; rfl⟩
  refine ⟨hiff, ?_⟩
  intro hnone
  apply hiff.mpr
  cases hmc : mapContainsName m s.name
  · rfl
  · exfalso
    rw [mapContainsName, List.any_eq_true] at hmc
    obtain ⟨v, hv, hvany⟩ := hmc
    rw [List.any_eq_true] at hvany
    obtain ⟨x, hx, hxname⟩ := hvany
    have hxn : x.name = s.name := of_decide_eq_true hxname
    rw [hm, applyRetentionMap, List.mem_map] at hv
    obtain ⟨q, hq, hqe⟩ := hv
    rw [keepVolumeToBackup, List.mem_filter] at hq
    obtain ⟨hq1, hq2⟩ := hq
    rw [buildVolumeMap, List.mem_map] at hq1
    obtain ⟨vol, hvol, hvole⟩ := hq1
    have hx2 : x ∈ applyRetentionVolume keepMin cut q.2 := by
      have : v.2 = applyRetentionVolume keepMin cut q.2 := by rw [← hqe]
      rw [← this]
      exact hx
    have hx3 : x ∈ q.2 := applyRetentionVolume_subset _ _ _ hx2
    have hq2' : q.2 = mapSnapshotToVolume vol catalogSnaps := by rw [← hvole]
    rw [hq2', mapSnapshotToVolume, mem_sortDesc, List.mem_filter] at hx3
    obtain ⟨_, hpre⟩ := hx3
    rw [hxn] at hpre
    rcases hnone vol hvol with hcase | hcase
    · have hq1' : q.1 = vol := by rw [← hvole]
      rw [hq1', hcase] at hq2
      exact Bool.false_ne_true hq2
    · rw [hcase] at hpre
      exact Bool.false_ne_true hpre

/-- C3, witnessed: with backup glob `data/*` and volumes `data/a` and
`other/b`, the snapshot `other/b@manual` (no auto-backup suffix, volume
matching no glob) reported by `zfs list` lands in the destroy set of the
retention pass. -/
theorem sync_snapshots_delete_scope_witness :
    (⟨"other/b@manual".toList, 7⟩ : Snapshot)
      ∈ syncSnapshotsDeleted
          [⟨"data/a@auto-backup-1".toList, 10⟩, ⟨"other/b@manual".toList, 7⟩]
          (applyRetentionMap 3 0
            (keepVolumeToBackup ["data/*".toList]
              (buildVolumeMap ["data/a".toList, "other/b".toList]
                [⟨"data/a@auto-backup-1".toList, 10⟩,
                 ⟨"other/b@manual".toList, 7⟩]))) :=
  (sync_snapshots_delete_scope 3 0 ["data/*".toList]
      ["data/a".toList, "other/b".toList]
      [⟨"data/a@auto-backup-1".toList, 10⟩, ⟨"other/b@manual".toList, 7⟩]
      [⟨"data/a@auto-backup-1".toList, 10⟩, ⟨"other/b@manual".toList, 7⟩]
      ⟨"other/b@manual".toList, 7⟩ (by decide)).2 (by decide)

/-- C9: the backup loop's schedule merge sleeps until the earlier of the
two next fire times (as durations from `now`), choosing the incremental
only when its duration is strictly smaller; on a tie — equal durations,
in particular equal fire times — the full backup is chosen. -/
theorem scheduler_tie_prefers_full (schedDur incrDur : Nat) :
    (chooseBackup schedDur incrDur).1 = min schedDur incrDur
    ∧ (incrDur < schedDur →
        (chooseBackup schedDur incrDur).2 = SnapshotType.incremental)
    ∧ (schedDur ≤ incrDur →
        (chooseBackup schedDur incrDur).2 = SnapshotType.full)
    ∧ (schedDur = incrDur →
        (chooseBackup schedDur incrDur).2 = SnapshotType.full) := by
  unfold chooseBackup
  by_cases h : incrDur < schedDur
  · rw [if_pos h]
    refine ⟨?_, fun _ => rfl, fun h2 => absurd h (by omega),
            fun h2 => absurd h (by omega)⟩
    show incrDur = min schedDur incrDur
    omega
  · rw [if_neg h]
    refine ⟨?_, fun h2 => absurd h2 h, fun _ => rfl, fun _ => rfl⟩
    show schedDur = min schedDur incrDur
    omega

/-- C9, witnessed at the tie `schedDur = incrDur = 5`: the full backup is
chosen. -/
theorem scheduler_tie_prefers_full_witness :
    (chooseBackup 5 5).2 = SnapshotType.full :=
  (scheduler_tie_prefers_full 5 5).2.2.2 rfl

end Zfs2S3
